import Mathlib

/-!
Verification development for the sentry-auto-pr editor extension.

The TypeScript sources are shallowly embedded: each JavaScript `Map` becomes
an association list with `Map.set` replacement semantics, each `async`
method becomes a pure function over an explicit state (with oracles standing
for the HTTP responses of the two upstream APIs), and the single suspension
point of `IssueStore.refresh` (the awaited fetch) becomes an explicit
continuation so that the interleaving of two concurrent callers can be
replayed faithfully.
-/

namespace SentryAutoPR

/-- The issue snapshot fetched from the tracker (src/sentry/types.ts,
`SentryIssue`); only the fields the verified operations read are kept.
`culprit` is optional because the protocol adapter reads it with `?.`. -/
structure SentryIssue where
  id : String
  shortId : String
  title : String
  culprit : Option String
  level : String
  status : String
  count : String
  userCount : Nat
  firstSeen : String
  lastSeen : String
  permalink : String
  metadataValue : Option String
  deriving Repr, DecidableEq

/-- Association-list embedding of a JavaScript `Map` keyed by strings. -/
abbrev JsMap (β : Type) := List (String × β)

/-- `m.get(k)`: the value stored at `k`, if any. -/
def mapGet {β : Type} : JsMap β → String → Option β
  | [], _ => none
  | (k, v) :: rest, key => if k = key then some v else mapGet rest key

/-- `m.set(k, v)`: replace in place if the key exists, append otherwise
(JavaScript `Map.set` keeps the original insertion position on update). -/
def mapSet {β : Type} : JsMap β → String → β → JsMap β
  | [], key, v => [(key, v)]
  | (k, w) :: rest, key, v =>
    if k = key then (key, v) :: rest else (k, w) :: mapSet rest key v

/-- The issue-by-group mapping (`Map<string, SentryIssue[]>`). -/
abbrev IssuesByProject := JsMap (List SentryIssue)

/-- One iteration of the `fetchAllIssues` loop: `issuesByProject.set(slug,
issues)` on success, `issuesByProject.set(slug, [])` when the per-project
fetch threw (the `catch` branch). -/
def fetchAllStep (fetchProject : String → Except String (List SentryIssue))
    (issuesByProject : IssuesByProject) (projectSlug : String) :
    IssuesByProject :=
  match fetchProject projectSlug with
  | .ok issues => mapSet issuesByProject projectSlug issues
  | .error _ => mapSet issuesByProject projectSlug []

/-- `SentryClient.fetchAllIssues` (src/sentry/client.ts): one
`fetchProjectIssues` call per configured slug, in configuration order; a
failed per-project fetch is caught and that slug is mapped to `[]`. The
per-project HTTP interaction is the oracle `fetchProject`. -/
def fetchAllIssues (projectSlugs : List String)
    (fetchProject : String → Except String (List SentryIssue)) :
    IssuesByProject :=
  projectSlugs.foldl (fetchAllStep fetchProject) []

/-! ### `IssueStore.refresh` as a step machine (src/mcp/mcp-entry.ts) -/

/-- The mutable state of `IssueStore`: the issue-by-group mapping and the
re-entrancy flag `isRefreshing`. -/
structure IssueStoreState where
  issuesByProject : IssuesByProject
  isRefreshing : Bool
  deriving Repr, DecidableEq

/-- One call to `IssueStore.refresh`, run up to its only relevant suspension
point (the awaited `fetchAllIssues`). The call either returns synchronously
(`immediate`) or suspends (`fetching`): it has already set `isRefreshing`,
and `resume` is the rest of the method, applied to the fetched mapping once
the await completes (store it, clear the flag, return it). -/
inductive RefreshRun where
  | immediate (ret : IssuesByProject) (next : IssueStoreState)
  | fetching (next : IssueStoreState)
      (resume : IssuesByProject → IssuesByProject × IssueStoreState)

/-- `IssueStore.refresh`, faithfully branch by branch: no client clears the
mapping and returns it; an in-flight refresh returns the current
`issuesByProject` at once; otherwise `isRefreshing` is set and the method
suspends on the upstream fetch. -/
def refreshCall (hasClient : Bool) (s : IssueStoreState) : RefreshRun :=
  if !hasClient then
    .immediate [] { issuesByProject := [], isRefreshing := s.isRefreshing }
  else if s.isRefreshing then
    .immediate s.issuesByProject s
  else
    .fetching { s with isRefreshing := true }
      (fun fetched => (fetched, { issuesByProject := fetched, isRefreshing := false }))

/-- Outcome of replaying two concurrent `refresh()` callers on the
single-threaded event loop. -/
structure ConcurrentOutcome where
  fetchCount : Nat
  retA : IssuesByProject
  retB : IssuesByProject
  final : IssueStoreState
  deriving Repr, DecidableEq

/-- Two concurrent `refresh()` calls: caller A runs first; if A suspends at
the fetch, caller B is invoked while A is in flight (B's call runs
synchronously to completion, since the guard makes it return immediately),
and then A's await completes with `fetched` and A resumes. `fetchCount`
counts the upstream fetch sequences started. -/
def concurrentRefresh (hasClient : Bool) (s0 : IssueStoreState)
    (fetched : IssuesByProject) : ConcurrentOutcome :=
  match refreshCall hasClient s0 with
  | .immediate retA s1 =>
    match refreshCall hasClient s1 with
    | .immediate retB s2 => ⟨0, retA, retB, s2⟩
    | .fetching _ resume =>
      let r := resume fetched
      ⟨1, retA, r.1, r.2⟩
  | .fetching s1 resume =>
    match refreshCall hasClient s1 with
    | .immediate retB _ =>
      let r := resume fetched
      ⟨1, r.1, retB, r.2⟩
    | .fetching _ resumeB =>
      let rB := resumeB fetched
      let rA := resume fetched
      ⟨2, rA.1, rB.1, rA.2⟩

/-! ### The comment correlator (src/sentry/client.ts, src/stores) -/

/-- A character of the JavaScript class `[\w-]`: ASCII letter, digit,
underscore or hyphen. -/
def isWordChar (c : Char) : Bool :=
  c.isAlphanum || c == '_' || c == '-'

/-- The literal part of the pattern
`/https:\/\/app\.clickup\.com\/t\/[\w-]+/`. -/
def clickUpUrlChars : List Char :=
  "https://app.clickup.com/t/".toList

/-- Attempt the pattern at the start of `cs`: the literal head followed by a
non-empty greedy run of `[\w-]` characters. -/
def matchClickUpAt (cs : List Char) : Option (List Char) :=
  if clickUpUrlChars.isPrefixOf cs then
    let run := (cs.drop clickUpUrlChars.length).takeWhile isWordChar
    if run = [] then none else some (clickUpUrlChars ++ run)
  else none

/-- `text.match(regex)` for the ClickUp-URL pattern: the leftmost position
where the pattern matches, scanning left to right. -/
def findClickUpUrl : List Char → Option (List Char)
  | [] => none
  | c :: cs =>
    match matchClickUpAt (c :: cs) with
    | some m => some m
    | none => findClickUpUrl cs

/-- String-level wrapper of `findClickUpUrl`. -/
def findClickUpUrlString (text : String) : Option String :=
  (findClickUpUrl text.toList).map (fun cs => String.mk cs)

/-- `SentryClient.parseClickUpUrlFromComments`: scan the issue's comment
texts in order (each comment's text is `comment.data?.text || comment.text
|| ""`, embedded here as the extracted string) and return the first
ClickUp-URL match; `none` when no comment matches. -/
def parseClickUpUrlFromComments : List String → Option String
  | [] => none
  | text :: rest =>
    match findClickUpUrlString text with
    | some url => some url
    | none => parseClickUpUrlFromComments rest

/-! ### `StoreManager.refreshSentry` (src/stores/storeManager.ts) -/

/-- The Sentry client as the store sees it: the configured slugs plus the
two HTTP oracles (per-project issue fetch, per-issue comment fetch;
`getIssueComments` catches its own errors and returns `[]`). -/
structure SentryClientModel where
  projectSlugs : List String
  fetchProject : String → Except String (List SentryIssue)
  getComments : String → List String

/-- `parseClickUpUrlFromComments(issue.id)` through the client model. -/
def clientScan (c : SentryClientModel) (issueId : String) : Option String :=
  parseClickUpUrlFromComments (c.getComments issueId)

/-- One iteration of the correlation loop body: record the first found
ClickUp URL for the issue (`setTaskMapping`), do nothing when the scan
found none. -/
def correlateIssue (scan : String → Option String)
    (issueTaskMap : JsMap String) (issue : SentryIssue) : JsMap String :=
  match scan issue.id with
  | some url => mapSet issueTaskMap issue.id url
  | none => issueTaskMap

/-- The full correlation loop of `refreshSentry`: every issue of every
group, in mapping order. -/
def correlateAll (scan : String → Option String)
    (issuesByProject : IssuesByProject) (issueTaskMap : JsMap String) :
    JsMap String :=
  issuesByProject.foldl
    (fun taskMap entry => entry.2.foldl (correlateIssue scan) taskMap)
    issueTaskMap

/-- The two mappings owned by the store layer. -/
structure StoreState where
  issuesByProject : IssuesByProject
  issueTaskMap : JsMap String
  deriving Repr, DecidableEq

/-- Externally observable operations of one `refreshSentry` run, in program
order. -/
inductive StoreEvt where
  | fetchIssues
  | replaceMapping
  | correlate
  | emitChange
  deriving Repr, DecidableEq, BEq

/-- `StoreManager.refreshSentry`: with no Sentry client the mapping is
cleared (`updateIssues(new Map())`) and the method returns — note, without
firing the change emitter; with a client the store refresh replaces the
mapping with `fetchAllIssues`, the correlation loop re-runs, and the change
emitter fires once at the end. -/
def refreshSentryModel (client : Option SentryClientModel) (s : StoreState) :
    StoreState × List StoreEvt :=
  match client with
  | none =>
    ({ issuesByProject := [], issueTaskMap := s.issueTaskMap },
      [.replaceMapping])
  | some c =>
    let issuesByProject := fetchAllIssues c.projectSlugs c.fetchProject
    let issueTaskMap := correlateAll (clientScan c) issuesByProject s.issueTaskMap
    ({ issuesByProject := issuesByProject, issueTaskMap := issueTaskMap },
      [.fetchIssues, .replaceMapping, .correlate, .emitChange])

/-! ### Stack-trace rendering in `getIssueDetails` (src/mcp/server.ts) -/

/-- JavaScript `a || b` on an optional string: the fallback replaces both a
missing and an empty value. -/
def jsOrStr (v : Option String) (fallback : String) : String :=
  match v with
  | some s => if s = "" then fallback else s
  | none => fallback

/-- JavaScript `n || "?"` on an optional number rendered into a template:
`0` is falsy and also renders as the fallback. -/
def jsOrNat (v : Option Nat) (fallback : String) : String :=
  match v with
  | some n => if n = 0 then fallback else toString n
  | none => fallback

/-- A stack frame as the renderer reads it (`functionName` embeds the
source field `function`, a Lean keyword). -/
structure StackFrame where
  functionName : Option String
  filename : Option String
  absPath : Option String
  lineNo : Option Nat
  deriving Repr, DecidableEq

/-- One exception of the chain; `stacktrace` embeds
`exception.stacktrace?.frames`. -/
structure ExceptionValue where
  type : String
  value : String
  stacktrace : Option (List StackFrame)
  deriving Repr, DecidableEq

/-- One `  at function (file:line)` line. -/
def frameLine (frame : StackFrame) : String :=
  "  at " ++ jsOrStr frame.functionName "<anonymous>" ++ " (" ++
    jsOrStr frame.filename (jsOrStr frame.absPath "unknown") ++ ":" ++
    jsOrNat frame.lineNo "?" ++ ")"

/-- The lines one exception contributes: its header, then its frames
innermost first (`frames.slice().reverse()`). -/
def renderException (exception : ExceptionValue) : List String :=
  (exception.type ++ ": " ++ exception.value) ::
    (match exception.stacktrace with
     | some frames => (frames.reverse).map frameLine
     | none => [])

/-- The stack-trace section of the detail output: the exception chain is
iterated in reversed stored order (`values.reverse()`), appending each
exception's header and reversed frames to the accumulated details. -/
def renderStackTrace (values : List ExceptionValue) : List String :=
  (values.reverse).foldl
    (fun details exception =>
      details ++
        ((exception.type ++ ": " ++ exception.value) ::
          (match exception.stacktrace with
           | some frames => (frames.reverse).map frameLine
           | none => [])))
    []

/-! ### `searchIssues` (src/mcp/server.ts) -/

/-- JavaScript `toLowerCase()`, character by character (kernel-computable,
extensionally the library `String.toLower`). -/
def strToLower (s : String) : String :=
  String.mk (s.toList.map Char.toLower)

/-- Substring containment on character lists: does `needle` occur
contiguously inside `hay`? -/
def charsInclude (needle : List Char) : List Char → Bool
  | [] => needle.isPrefixOf []
  | c :: rest => needle.isPrefixOf (c :: rest) || charsInclude needle rest

/-- `hay.includes(needle)`. -/
def strIncludes (hay needle : String) : Bool :=
  charsInclude needle.toList hay.toList

/-- The argument object of the `sentry_search_issues` tool. -/
structure SearchArgs where
  search : Option String
  project : Option String
  limit : Option Nat
  deriving Repr, DecidableEq

/-- `args.search?.toLowerCase() || ""`. -/
def searchTermOf (args : SearchArgs) : String :=
  match args.search with
  | some s => strToLower s
  | none => ""

/-- The project filter; an empty string is falsy in the guard
`projectFilter && project !== projectFilter`, hence no filter. -/
def projectFilterOf (args : SearchArgs) : Option String :=
  match args.project with
  | some p => if p = "" then none else some p
  | none => none

/-- `args.limit || 25`: absent — and also `0`, which is falsy — becomes
the default 25. -/
def limitOf (args : SearchArgs) : Nat :=
  match args.limit with
  | some n => if n = 0 then 25 else n
  | none => 25

/-- The per-issue filter: empty term matches everything, otherwise a
case-insensitive substring match on title, shortId or culprit (an absent
culprit fails its disjunct). -/
def matchesSearch (searchTerm : String) (issue : SentryIssue) : Bool :=
  (searchTerm == "") || strIncludes (strToLower issue.title) searchTerm ||
    strIncludes (strToLower issue.shortId) searchTerm ||
    (match issue.culprit with
     | some culprit => strIncludes (strToLower culprit) searchTerm
     | none => false)

/-- The body of the `searchIssues` accumulation loop for one mapping entry:
skip the group when a project filter is present and differs, otherwise push
every issue of the group that passes the search predicate, in order. -/
def searchStep (args : SearchArgs) (allIssues : List (String × SentryIssue))
    (entry : String × List SentryIssue) : List (String × SentryIssue) :=
  let kept := (entry.2.filter (matchesSearch (searchTermOf args))).map
    (fun i => (entry.1, i))
  match projectFilterOf args with
  | some f => if entry.1 = f then allIssues ++ kept else allIssues
  | none => allIssues ++ kept

/-- The `allIssues` accumulation loop of `searchIssues`, in mapping
order. -/
def searchCollect (issuesByProject : IssuesByProject) (args : SearchArgs) :
    List (String × SentryIssue) :=
  issuesByProject.foldl (searchStep args) []

/-- `allIssues.slice(0, limit)`. -/
def searchIssuesList (issuesByProject : IssuesByProject) (args : SearchArgs) :
    List (String × SentryIssue) :=
  (searchCollect issuesByProject args).take (limitOf args)

/-- One formatted search entry (timestamps are kept as the raw upstream
strings; the source formats them with `toLocaleString`). -/
def formatSearchEntry (entry : String × SentryIssue) : String :=
  "**" ++ entry.2.shortId ++ "** (" ++ entry.1 ++ ")\n" ++
    "Title: " ++ entry.2.title ++ "\n" ++
    "Level: " ++ entry.2.level ++ "\n" ++
    "Events: " ++ entry.2.count ++ " (" ++ toString entry.2.userCount ++
    " users affected)\n" ++
    "Last seen: " ++ entry.2.lastSeen ++ "\n" ++
    "Culprit: " ++ jsOrStr entry.2.culprit "N/A" ++ "\n" ++
    "Link: " ++ entry.2.permalink ++ "\n" ++
    "Issue ID: " ++ entry.2.id ++ "\n"

/-- A tool response of the protocol surface: a text payload plus the
explicit error flag (`isError` absent in JS is embedded as `false`). -/
structure ToolResponse where
  text : String
  isError : Bool
  deriving Repr, DecidableEq

/-- The `sentry_search_issues` tool: filter, cap, format; an empty result
is a success payload with guidance text, never an error. -/
def searchIssues (issuesByProject : IssuesByProject) (args : SearchArgs) :
    ToolResponse :=
  let response := String.intercalate "\n---\n\n"
    ((searchIssuesList issuesByProject args).map formatSearchEntry)
  { text :=
      if response = "" then
        "No issues found matching your criteria. All issues may be resolved!"
      else response,
    isError := false }

/-- The `CallToolRequestSchema` handler's try/catch: a thrown error becomes
an explicit error payload, a returned value a success payload; no exception
escapes the request/response boundary (the embedding is a total
function). -/
def handleToolCall (result : Except String String) : ToolResponse :=
  match result with
  | .ok text => { text := text, isError := false }
  | .error msg => { text := "Error: " ++ msg, isError := true }

/-! ### ClickUp tool calls (src/clickup/client.ts, src/mcp/server.ts) -/

/-- A ClickUp status entry (id and display name). -/
structure StatusInfo where
  id : String
  status : String
  deriving Repr, DecidableEq

/-- The parts of a fetched ClickUp task that `updateTaskStatus` reads:
`task.list?.statuses`, `task.statuses`, `task.list?.id`, `task.status`. -/
structure ClickUpTaskData where
  listStatuses : Option (List StatusInfo)
  taskStatuses : Option (List StatusInfo)
  listId : Option String
  currentStatus : Option StatusInfo
  deriving Repr, DecidableEq

/-- The three-tier status-vocabulary resolution of `updateTaskStatus`:
non-empty `task.list.statuses`, else non-empty `task.statuses`, else a
separate list fetch (whose failure is caught, leaving none), and as last
resort the task's current status alone. -/
def resolveAvailableStatuses (task : ClickUpTaskData)
    (fetchList : String → Except String (List StatusInfo)) :
    List StatusInfo :=
  let availableStatuses :=
    match task.listStatuses with
    | some (s :: rest) => s :: rest
    | _ =>
      match task.taskStatuses with
      | some (s :: rest) => s :: rest
      | _ =>
        match task.listId with
        | some listId =>
          match fetchList listId with
          | .ok statuses => statuses
          | .error _ => []
        | none => []
  match availableStatuses with
  | [] =>
    match task.currentStatus with
    | some st => [st]
    | none => []
  | _ => availableStatuses

/-- The message thrown when the requested status matches nothing (the
source appends a JSON diagnostics blob repeating the requested status and
the available statuses; that suffix is omitted here). -/
def statusNotFoundMessage (statusName : String)
    (availableStatuses : List StatusInfo) : String :=
  let statusNames := String.intercalate ", "
    (availableStatuses.map (fun s => s.status))
  "Status \"" ++ statusName ++ "\" not found. Available statuses: " ++
    (if statusNames = "" then "none found" else statusNames)

/-- `ClickUpClient.updateTaskStatus`: fetch the task, resolve the status
vocabulary, match the requested name case-insensitively; on a match the
`PUT` update runs (oracle `putResult`), otherwise the not-found error is
thrown and no update is performed. -/
def updateTaskStatus (fetchTask : Except String ClickUpTaskData)
    (fetchList : String → Except String (List StatusInfo))
    (statusName : String) (putResult : Except String Unit) :
    Except String Unit :=
  match fetchTask with
  | .error e => .error e
  | .ok task =>
    let availableStatuses := resolveAvailableStatuses task fetchList
    match availableStatuses.find?
        (fun s => strToLower s.status == strToLower statusName) with
    | some _ => putResult
    | none => .error (statusNotFoundMessage statusName availableStatuses)

/-- The parts of a ClickUp board configuration the tool handlers read. -/
structure ClickUpConfigModel where
  apiToken : String
  teamId : String
  completedStatusName : String
  deriving Repr, DecidableEq

/-- Client resolution of the MCP server: the shared store's configuration
when present, else the environment-derived one (constructor order;
`addClickUpComment`/`setClickUpStatus` re-derive from the store before
their configured-check). -/
def resolveClickUpClient (storeConfig envConfig : Option ClickUpConfigModel) :
    Option ClickUpConfigModel :=
  match storeConfig with
  | some cfg => some cfg
  | none => envConfig

/-- JavaScript falsiness of an optional string argument (`!taskId`):
absent or empty. -/
def jsFalsy (s : Option String) : Bool :=
  match s with
  | some v => v == ""
  | none => true

/-- The `clickup_set_status` tool body (`setClickUpStatus`): argument
check, configured check, then the client call; an absent status name
defaults to the configured completion-status name. -/
def setClickUpStatusCall (storeConfig envConfig : Option ClickUpConfigModel)
    (taskId statusName : Option String)
    (fetchTask : Except String ClickUpTaskData)
    (fetchList : String → Except String (List StatusInfo))
    (putResult : Except String Unit) : Except String String :=
  if jsFalsy taskId then .error "taskId is required"
  else
    match resolveClickUpClient storeConfig envConfig with
    | none => .error "ClickUp is not configured"
    | some cfg =>
      let requested :=
        match statusName with
        | some s => s
        | none => cfg.completedStatusName
      match updateTaskStatus fetchTask fetchList requested putResult with
      | .ok _ =>
        .ok ("✅ ClickUp task " ++ jsOrStr taskId "" ++
          " status set to \"" ++ jsOrStr statusName "complete" ++ "\"")
      | .error e => .error e

/-- The `clickup_add_comment` tool body (`addClickUpComment`): argument
check, configured check, then the comment post (oracle `postComment`). -/
def addClickUpCommentCall (storeConfig envConfig : Option ClickUpConfigModel)
    (taskId comment : Option String)
    (postComment : Except String Unit) : Except String String :=
  if jsFalsy taskId || jsFalsy comment then
    .error "taskId and comment are required"
  else
    match resolveClickUpClient storeConfig envConfig with
    | none => .error "ClickUp is not configured"
    | some _ =>
      match postComment with
      | .ok _ => .ok ("✅ Comment added to ClickUp task " ++ jsOrStr taskId "")
      | .error e => .error e

/-! ### Issue resolution by identifier (src/mcp/server.ts) -/

/-- The shared lookup of `getIssueDetails` and `resolveIssue`: the first
issue, in mapping order, whose full or short identifier equals the
argument. -/
def findIssueInProjects : IssuesByProject → String → Option (String × SentryIssue)
  | [], _ => none
  | (project, issues) :: rest, issueId =>
    match issues.find? (fun i => i.id == issueId || i.shortId == issueId) with
    | some issue => some (project, issue)
    | none => findIssueInProjects rest issueId

/-- `getIssueDetails`: resolve the identifier against the freshly fetched
mapping; an unknown identifier throws `Issue not found`. The success text
is abbreviated to its header (the event enrichment is embedded separately
by `renderStackTrace`). -/
def getIssueDetailsCall (issuesByProject : IssuesByProject)
    (issueId : Option String) : Except String String :=
  if jsFalsy issueId then .error "issueId is required"
  else
    let id := jsOrStr issueId ""
    match findIssueInProjects issuesByProject id with
    | none => .error ("Issue not found: " ++ id)
    | some (project, issue) =>
      .ok ("# " ++ issue.shortId ++ ": " ++ issue.title ++
        " (project " ++ project ++ ")")

/-- `resolveIssue`: the same lookup; the second component is the identifier
passed to the upstream `PUT` status update, `none` when no mutation was
issued. -/
def resolveIssueCall (issuesByProject : IssuesByProject)
    (issueId : Option String) : Except String String × Option String :=
  if jsFalsy issueId then (.error "issueId is required", none)
  else
    let id := jsOrStr issueId ""
    match findIssueInProjects issuesByProject id with
    | none => (.error ("Issue not found: " ++ id), none)
    | some (_, issue) =>
      (.ok ("✅ Issue " ++ issue.shortId ++
        " has been marked as resolved in next release."), some issue.id)

/-- The query `SentryClient.fetchProjectIssues` sends upstream. -/
structure IssuesRequest where
  statsPeriod : String
  query : String
  sort : String
  limit : Nat
  deriving Repr, DecidableEq

/-- The request construction of `fetchProjectIssues`: split the slug on
`/`; a missing or empty org or project part throws, otherwise the fixed
unresolved-only, 14-day, 25-issue query is issued. -/
def projectIssuesRequest (projectSlug : String) : Except String IssuesRequest :=
  let parts := projectSlug.splitOn "/"
  let org := parts.getD 0 ""
  let project := parts.getD 1 ""
  if org = "" || project = "" then
    .error ("Invalid project slug format: " ++ projectSlug)
  else
    .ok { statsPeriod := "14d",
          query := "project:" ++ project ++ " is:unresolved",
          sort := "date",
          limit := 25 }

/-- A sample issue used by concrete witnesses and counterexamples. -/
def sampleIssue : SentryIssue :=
  { id := "101", shortId := "WEB-1", title := "TypeError: boom",
    culprit := some "app/main.ts", level := "error", status := "unresolved",
    count := "3", userCount := 2, firstSeen := "2025-01-01",
    lastSeen := "2025-01-02", permalink := "https://sentry.example/101",
    metadataValue := none }

/-! ### Lemmas about the `Map` embedding -/

theorem mapGet_mapSet_self {β : Type} (m : JsMap β) (k : String) (v : β) :
    mapGet (mapSet m k v) k = some v := by
  induction m with
  | nil => simp [mapSet, mapGet]
  | cons p rest ih =>
    obtain ⟨pk, pv⟩ := p
    by_cases hp : pk = k
    · simp [mapSet, mapGet, hp]
    · simp [mapSet, mapGet, hp, ih]

theorem mapGet_mapSet_other {β : Type} (m : JsMap β) (k k' : String) (v : β)
    (hne : k' ≠ k) : mapGet (mapSet m k v) k' = mapGet m k' := by
  induction m with
  | nil => simp [mapSet, mapGet, Ne.symm hne]
  | cons p rest ih =>
    obtain ⟨pk, pv⟩ := p
    by_cases hp : pk = k
    · subst hp
      simp [mapSet, mapGet, Ne.symm hne]
    · by_cases hq : pk = k'
      · subst hq
        simp [mapSet, mapGet, hne]
      · simp [mapSet, mapGet, hp, hq, ih]

theorem mapGet_isSome_mapSet {β : Type} (m : JsMap β) (k k' : String) (v : β) :
    (mapGet (mapSet m k v) k').isSome ↔ k' = k ∨ (mapGet m k').isSome := by
  by_cases h : k' = k
  · subst h; simp [mapGet_mapSet_self]
  · rw [mapGet_mapSet_other m k k' v h]
    simp [h]

/-! ### The fetch-all loop (claim C2) -/

theorem mapGet_fetchAll_foldl_isSome
    (f : String → Except String (List SentryIssue)) (slugs : List String)
    (m : IssuesByProject) (g : String) :
    (mapGet (slugs.foldl (fetchAllStep f) m) g).isSome ↔
      g ∈ slugs ∨ (mapGet m g).isSome := by
  induction slugs generalizing m with
  | nil => simp
  | cons s rest ih =>
    rw [List.foldl_cons, ih]
    have hstep : (mapGet (fetchAllStep f m s) g).isSome ↔
        g = s ∨ (mapGet m g).isSome := by
      unfold fetchAllStep
      cases f s with
      | ok issues => exact mapGet_isSome_mapSet m s g issues
      | error e => exact mapGet_isSome_mapSet m s g []
    rw [hstep]
    simp [List.mem_cons]
    tauto

theorem mapGet_fetchAll_foldl_not_mem
    (f : String → Except String (List SentryIssue)) (slugs : List String)
    (m : IssuesByProject) (g : String) (hg : g ∉ slugs) :
    mapGet (slugs.foldl (fetchAllStep f) m) g = mapGet m g := by
  induction slugs generalizing m with
  | nil => simp
  | cons s rest ih =>
    have hgs : g ≠ s := fun h => hg (h ▸ List.mem_cons_self s rest)
    have hgr : g ∉ rest := fun h => hg (List.mem_cons_of_mem s h)
    rw [List.foldl_cons, ih _ hgr]
    unfold fetchAllStep
    cases f s with
    | ok issues => exact mapGet_mapSet_other m s g issues hgs
    | error e => exact mapGet_mapSet_other m s g [] hgs

theorem mapGet_fetchAll_foldl_error
    (f : String → Except String (List SentryIssue)) (slugs : List String)
    (m : IssuesByProject) (g : String) (hg : g ∈ slugs)
    (e : String) (he : f g = .error e) :
    mapGet (slugs.foldl (fetchAllStep f) m) g = some [] := by
  induction slugs generalizing m with
  | nil => cases hg
  | cons s rest ih =>
    rw [List.foldl_cons]
    by_cases hmem : g ∈ rest
    · exact ih _ hmem
    · have hgs : g = s := by
        rcases List.mem_cons.mp hg with h | h
        · exact h
        · exact absurd h hmem
      subst hgs
      rw [mapGet_fetchAll_foldl_not_mem f rest _ g hmem]
      unfold fetchAllStep
      rw [he]
      exact mapGet_mapSet_self m g []

/-- C2: after a full issue refresh (`SentryClient.fetchAllIssues`), the
issue-by-group mapping has an entry exactly for the configured project
slugs, and a slug whose per-project fetch failed is mapped to the empty
sequence (it is neither absent nor does its failure abort the loop for the
remaining slugs). -/
theorem fetchAllIssues_key_set_and_failed_empty
    (slugs : List String) (f : String → Except String (List SentryIssue)) :
    (∀ g, (mapGet (fetchAllIssues slugs f) g).isSome ↔ g ∈ slugs) ∧
    (∀ g, g ∈ slugs → ∀ e, f g = .error e →
      mapGet (fetchAllIssues slugs f) g = some []) := by
  constructor
  · intro g
    rw [fetchAllIssues, mapGet_fetchAll_foldl_isSome]
    simp [mapGet]
  · intro g hg e he
    exact mapGet_fetchAll_foldl_error f slugs [] g hg e he

/-- Witness for C2: two configured groups, the second fetch failing; the
mapping has exactly those two keys, the failed one mapped to `[]`. -/
theorem fetchAllIssues_key_set_and_failed_empty_witness :
    (mapGet
      (fetchAllIssues ["acme/web", "acme/api"]
        (fun s => if s = "acme/web" then .ok [] else .error "boom"))
      "acme/api" = some []) := by
  exact
    (fetchAllIssues_key_set_and_failed_empty ["acme/web", "acme/api"]
        (fun s => if s = "acme/web" then .ok [] else .error "boom")).2
      "acme/api" (by decide) "boom" (by rfl)

/-! ### Concurrent refresh (claim C1) -/

/-- C1 counterexample: replay two concurrent `IssueStore.refresh` calls on
a concrete store (old mapping non-empty, fetch returning a new mapping).
Exactly one upstream fetch is performed, but the two callers do NOT receive
the same resulting mapping: the second caller gets the pre-refresh value,
refuting the claim as stated. -/
theorem concurrentRefresh_second_caller_gets_stale_mapping :
    (concurrentRefresh true ⟨[("acme/web", [])], false⟩
        [("acme/web", [sampleIssue])]).fetchCount = 1 ∧
    (concurrentRefresh true ⟨[("acme/web", [])], false⟩
        [("acme/web", [sampleIssue])]).retB ≠
      (concurrentRefresh true ⟨[("acme/web", [])], false⟩
        [("acme/web", [sampleIssue])]).retA := by
  decide

/-- C1 (amended): two concurrent `IssueStore.refresh` calls perform exactly
one upstream fetch sequence; the caller that started the fetch receives the
newly fetched mapping (which also becomes the stored state), while the
caller that arrived during the flight returns immediately with the
pre-refresh mapping. -/
theorem concurrentRefresh_one_fetch_second_caller_pre_refresh
    (s0 : IssueStoreState) (fetched : IssuesByProject)
    (h : s0.isRefreshing = false) :
    (concurrentRefresh true s0 fetched).fetchCount = 1 ∧
    (concurrentRefresh true s0 fetched).retA = fetched ∧
    (concurrentRefresh true s0 fetched).retB = s0.issuesByProject ∧
    (concurrentRefresh true s0 fetched).final =
      { issuesByProject := fetched, isRefreshing := false } := by
  simp [concurrentRefresh, refreshCall, h]

/-- Witness for C1's amended theorem at a concrete store and fetch
result. -/
theorem concurrentRefresh_one_fetch_witness :
    (concurrentRefresh true ⟨[], false⟩ [("acme/web", [])]).fetchCount = 1 ∧
    (concurrentRefresh true ⟨[], false⟩ [("acme/web", [])]).retB = [] := by
  have h := concurrentRefresh_one_fetch_second_caller_pre_refresh
    ⟨[], false⟩ [("acme/web", [])] rfl
  exact ⟨h.1, h.2.2.1⟩

/-! ### Change notifications of `refreshSentry` (claim C3) -/

/-- C3 counterexample: a `refreshSentry` invocation with no Sentry client
replaces the issue mapping (clearing it — an externally visible mutation)
yet emits no change notification, refuting "every single invocation emits
exactly one change notification". -/
theorem refreshSentry_no_client_mutates_without_notification :
    (refreshSentryModel none ⟨[("acme/web", [sampleIssue])], []⟩).1.issuesByProject ≠
      [("acme/web", [sampleIssue])] ∧
    ((refreshSentryModel none ⟨[("acme/web", [sampleIssue])], []⟩).2.count
      StoreEvt.emitChange = 0) := by
  decide

/-- C3 (amended): every `refreshSentry` invocation with a configured client
emits exactly one change notification, as the last step — after the
issue-by-group mapping has been replaced with the fetch result and the
comment correlation has re-run. -/
theorem refreshSentry_with_client_emits_exactly_once
    (c : SentryClientModel) (s : StoreState) :
    ((refreshSentryModel (some c) s).2.count StoreEvt.emitChange = 1) ∧
    ((refreshSentryModel (some c) s).2 =
      [.fetchIssues, .replaceMapping, .correlate, .emitChange]) ∧
    ((refreshSentryModel (some c) s).1.issuesByProject =
      fetchAllIssues c.projectSlugs c.fetchProject) ∧
    ((refreshSentryModel (some c) s).1.issueTaskMap =
      correlateAll (clientScan c) (fetchAllIssues c.projectSlugs c.fetchProject)
        s.issueTaskMap) :=
  ⟨rfl, rfl, rfl, rfl⟩

/-! ### Correlation never clears a reference (claim C4) -/

theorem mapGet_correlateIssue_of_scan_none (scan : String → Option String)
    (tm : JsMap String) (issue : SentryIssue) (issueId : String)
    (h : scan issueId = none) :
    mapGet (correlateIssue scan tm issue) issueId = mapGet tm issueId := by
  unfold correlateIssue
  cases hscan : scan issue.id with
  | none => rfl
  | some url =>
    by_cases hid : issue.id = issueId
    · rw [hid, h] at hscan
      cases hscan
    · exact mapGet_mapSet_other tm issue.id issueId url (fun he => hid he.symm)

theorem mapGet_correlateFold_of_scan_none (scan : String → Option String)
    (issues : List SentryIssue) (tm : JsMap String) (issueId : String)
    (h : scan issueId = none) :
    mapGet (issues.foldl (correlateIssue scan) tm) issueId = mapGet tm issueId := by
  induction issues generalizing tm with
  | nil => rfl
  | cons i rest ih =>
    rw [List.foldl_cons, ih _]
    exact mapGet_correlateIssue_of_scan_none scan tm i issueId h

theorem mapGet_correlateAll_of_scan_none (scan : String → Option String)
    (issuesByProject : IssuesByProject) (tm : JsMap String) (issueId : String)
    (h : scan issueId = none) :
    mapGet (correlateAll scan issuesByProject tm) issueId = mapGet tm issueId := by
  unfold correlateAll
  induction issuesByProject generalizing tm with
  | nil => rfl
  | cons entry rest ih =>
    rw [List.foldl_cons, ih _]
    exact mapGet_correlateFold_of_scan_none scan entry.2 tm issueId h

/-- C4: once `setTaskMapping` (the effect of `createTaskForIssue`) has
recorded a task URL for an issue, a full correlator run whose scan finds no
URL for that issue leaves the recorded reference in place — the scan never
clears or removes an existing issue-to-task entry. -/
theorem correlator_scan_none_preserves_reference
    (scan : String → Option String) (issuesByProject : IssuesByProject)
    (m0 : JsMap String) (issueId taskUrl : String)
    (hscan : scan issueId = none) :
    mapGet (correlateAll scan issuesByProject (mapSet m0 issueId taskUrl))
      issueId = some taskUrl := by
  rw [mapGet_correlateAll_of_scan_none scan issuesByProject _ issueId hscan]
  exact mapGet_mapSet_self m0 issueId taskUrl

/-- Witness for C4: an explicitly created reference for issue `101`
survives a correlator run over a mapping containing that issue when the
scan finds nothing. -/
theorem correlator_scan_none_preserves_reference_witness :
    mapGet
      (correlateAll (fun _ => none) [("acme/web", [sampleIssue])]
        (mapSet [] "101" "https://app.clickup.com/t/abc123"))
      "101" = some "https://app.clickup.com/t/abc123" :=
  correlator_scan_none_preserves_reference (fun _ => none)
    [("acme/web", [sampleIssue])] [] "101" "https://app.clickup.com/t/abc123"
    rfl

/-! ### Stack-trace ordering (claim C5) -/

theorem render_foldl_eq_join (l : List ExceptionValue) (acc : List String) :
    l.foldl
      (fun details exception =>
        details ++
          ((exception.type ++ ": " ++ exception.value) ::
            (match exception.stacktrace with
             | some frames => (frames.reverse).map frameLine
             | none => [])))
      acc = acc ++ (l.map renderException).flatten := by
  induction l generalizing acc with
  | nil => simp
  | cons e rest ih =>
    rw [List.foldl_cons, ih]
    simp [renderException, List.append_assoc]

/-- C5: an exception whose upstream frame order is `[outer, middle, inner]`
is rendered with `inner` first (the upstream frame order is reversed), and
the stack-trace section renders the exception chain in reversed stored
order, so the originating exception (last in the raw payload) is printed
first. -/
theorem stack_frames_innermost_first_chain_reversed :
    (∀ t v outer middle inner,
      renderException ⟨t, v, some [outer, middle, inner]⟩ =
        [t ++ ": " ++ v, frameLine inner, frameLine middle, frameLine outer]) ∧
    (∀ values : List ExceptionValue,
      renderStackTrace values = ((values.reverse).map renderException).flatten) ∧
    (∀ e₁ e₂ : ExceptionValue,
      renderStackTrace [e₁, e₂] = renderException e₂ ++ renderException e₁) := by
  refine ⟨?_, ?_, ?_⟩
  · intro t v outer middle inner
    simp [renderException]
  · intro values
    rw [renderStackTrace, render_foldl_eq_join]
    simp
  · intro e₁ e₂
    rw [renderStackTrace, render_foldl_eq_join]
    simp

/-! ### `searchIssues` filtering and capping (claim C6) -/

theorem mem_searchStep (args : SearchArgs)
    (acc : List (String × SentryIssue)) (entry : String × List SentryIssue)
    (p : String) (i : SentryIssue)
    (h : (p, i) ∈ searchStep args acc entry) :
    (p, i) ∈ acc ∨
      (matchesSearch (searchTermOf args) i = true ∧
        ∀ f, projectFilterOf args = some f → p = f) := by
  unfold searchStep at h
  have hkept : ∀ hmem : (p, i) ∈ (entry.2.filter
      (matchesSearch (searchTermOf args))).map (fun j => (entry.1, j)),
      matchesSearch (searchTermOf args) i = true ∧ p = entry.1 := by
    intro hmem
    obtain ⟨j, hj, hpair⟩ := List.mem_map.mp hmem
    obtain ⟨hp, hi⟩ := Prod.mk.injEq .. ▸ hpair
    subst hp
    subst hi
    exact ⟨(List.mem_filter.mp hj).2, rfl⟩
  cases hf : projectFilterOf args with
  | none =>
    rw [hf] at h
    dsimp only at h
    rcases List.mem_append.mp h with hacc | hmem
    · exact Or.inl hacc
    · obtain ⟨hm, _⟩ := hkept hmem
      exact Or.inr ⟨hm, fun f hcontra => Option.noConfusion hcontra⟩
  | some f =>
    rw [hf] at h
    dsimp only at h
    by_cases he : entry.1 = f
    · rw [if_pos he] at h
      rcases List.mem_append.mp h with hacc | hmem
      · exact Or.inl hacc
      · obtain ⟨hm, hp⟩ := hkept hmem
        refine Or.inr ⟨hm, fun g hg => ?_⟩
        cases hg
        rw [hp, he]
    · rw [if_neg he] at h
      exact Or.inl h

theorem mem_searchCollect_fold (args : SearchArgs)
    (entries : IssuesByProject) (acc : List (String × SentryIssue))
    (p : String) (i : SentryIssue)
    (h : (p, i) ∈ entries.foldl (searchStep args) acc) :
    (p, i) ∈ acc ∨
      (matchesSearch (searchTermOf args) i = true ∧
        ∀ f, projectFilterOf args = some f → p = f) := by
  induction entries generalizing acc with
  | nil => exact Or.inl h
  | cons entry rest ih =>
    rw [List.foldl_cons] at h
    rcases ih _ h with hstep | hgood
    · exact mem_searchStep args acc entry p i hstep
    · exact Or.inr hgood

/-- C6: every entry returned by `searchIssues` passes the case-insensitive
title/shortId/culprit match and the optional group filter; the result is
capped at the effective limit, which is 25 when the caller supplies no
limit; and the response is always a success payload (`isError = false`),
also when nothing matches. -/
theorem searchIssues_matches_capped_success
    (issuesByProject : IssuesByProject) (args : SearchArgs) :
    (∀ p i, (p, i) ∈ searchIssuesList issuesByProject args →
      matchesSearch (searchTermOf args) i = true ∧
        ∀ f, projectFilterOf args = some f → p = f) ∧
    ((searchIssuesList issuesByProject args).length ≤ limitOf args) ∧
    (args.limit = none → limitOf args = 25) ∧
    ((searchIssues issuesByProject args).isError = false) := by
  refine ⟨?_, ?_, ?_, rfl⟩
  · intro p i hmem
    have hbase : (p, i) ∈ searchCollect issuesByProject args :=
      List.mem_of_mem_take hmem
    rcases mem_searchCollect_fold args issuesByProject [] p i hbase with hnil | hgood
    · cases hnil
    · exact hgood
  · rw [searchIssuesList, List.length_take]
    exact min_le_left _ _
  · intro hnone
    rw [limitOf, hnone]

/-- Witness for C6 at a concrete mapping and the default arguments. -/
theorem searchIssues_matches_capped_success_witness :
    matchesSearch (searchTermOf ⟨none, none, none⟩) sampleIssue = true ∧
    limitOf ⟨none, none, none⟩ = 25 := by
  have h := searchIssues_matches_capped_success
    [("acme/web", [sampleIssue])] ⟨none, none, none⟩
  exact ⟨(h.1 "acme/web" sampleIssue (by decide)).1, h.2.2.1 rfl⟩

/-- C6 counterexample: a caller-supplied limit of `0` is falsy in
`args.limit || 25`, so the code substitutes 25 and returns one entry — more
than the caller-supplied limit, refuting "at most the caller-supplied
limit" as stated. -/
theorem searchIssues_limit_zero_not_respected :
    searchIssuesList [("acme/web", [sampleIssue])] ⟨none, none, some 0⟩ =
      [("acme/web", sampleIssue)] := by
  decide

/-! ### Substring-containment helpers -/

theorem isPrefixOf_append_self (xs ys : List Char) :
    xs.isPrefixOf (xs ++ ys) = true := by
  induction xs with
  | nil => simp [List.isPrefixOf]
  | cons c rest ih => simp [List.isPrefixOf, ih]

theorem charsInclude_nil_needle (hay : List Char) :
    charsInclude [] hay = true := by
  cases hay with
  | nil => simp [charsInclude, List.isPrefixOf]
  | cons c rest => simp [charsInclude, List.isPrefixOf]

theorem strIncludes_empty_needle (hay : String) :
    strIncludes hay "" = true := by
  show charsInclude [] hay.toList = true
  exact charsInclude_nil_needle hay.toList

theorem charsInclude_of_isPrefixOf (needle hay : List Char)
    (h : needle.isPrefixOf hay = true) : charsInclude needle hay = true := by
  cases hay with
  | nil => exact h
  | cons c rest => simp [charsInclude, h]

theorem charsInclude_append_self (pre needle : List Char) :
    charsInclude needle (pre ++ needle) = true := by
  induction pre with
  | nil =>
    refine charsInclude_of_isPrefixOf needle needle ?_
    have hp := isPrefixOf_append_self needle []
    rwa [List.append_nil] at hp
  | cons c pre ih => simp [charsInclude, ih]

theorem strIncludes_append_self (a b : String) :
    strIncludes (a ++ b) b = true := by
  unfold strIncludes
  have hsplit : (a ++ b).toList = a.toList ++ b.toList := by
    simp [String.toList]
  rw [hsplit]
  exact charsInclude_append_self a.toList b.toList

/-! ### Unknown task status (claim C7) -/

theorem find?_status_eq_none (availableStatuses : List StatusInfo)
    (statusName : String)
    (h : ∀ s ∈ availableStatuses, strToLower s.status ≠ strToLower statusName) :
    availableStatuses.find?
      (fun s => strToLower s.status == strToLower statusName) = none := by
  refine List.find?_eq_none.mpr (fun s hs => ?_)
  simpa using h s hs

/-- C7: a `clickup_set_status` call whose requested status matches (case-
insensitively) none of the task's resolved status vocabulary performs no
update (`updateTaskStatus` throws instead of issuing the `PUT`), and the
protocol surface converts the thrown error into a structured error payload
whose text names the available statuses. -/
theorem setStatus_unknown_status_names_available
    (storeCfg : ClickUpConfigModel) (task : ClickUpTaskData)
    (fetchList : String → Except String (List StatusInfo))
    (putResult : Except String Unit) (taskId statusName : String)
    (htask : taskId ≠ "")
    (hmatch : ∀ s ∈ resolveAvailableStatuses task fetchList,
      strToLower s.status ≠ strToLower statusName) :
    updateTaskStatus (.ok task) fetchList statusName putResult =
      .error (statusNotFoundMessage statusName
        (resolveAvailableStatuses task fetchList)) ∧
    handleToolCall (setClickUpStatusCall (some storeCfg) none (some taskId)
        (some statusName) (.ok task) fetchList putResult) =
      { text := "Error: " ++ statusNotFoundMessage statusName
          (resolveAvailableStatuses task fetchList),
        isError := true } ∧
    strIncludes
      (statusNotFoundMessage statusName (resolveAvailableStatuses task fetchList))
      (String.intercalate ", "
        ((resolveAvailableStatuses task fetchList).map (fun s => s.status))) =
      true := by
  have hupd : updateTaskStatus (.ok task) fetchList statusName putResult =
      .error (statusNotFoundMessage statusName
        (resolveAvailableStatuses task fetchList)) := by
    unfold updateTaskStatus
    dsimp only
    rw [find?_status_eq_none _ _ hmatch]
  refine ⟨hupd, ?_, ?_⟩
  · unfold setClickUpStatusCall
    rw [if_neg (by simpa [jsFalsy] using htask)]
    dsimp only [resolveClickUpClient]
    rw [hupd]
    rfl
  · unfold statusNotFoundMessage
    dsimp only
    by_cases hempty : String.intercalate ", "
        ((resolveAvailableStatuses task fetchList).map (fun s => s.status)) = ""
    · rw [if_pos hempty, hempty]
      exact strIncludes_empty_needle _
    · rw [if_neg hempty]
      exact strIncludes_append_self _ _

/-- Witness for C7: a task whose list exposes only `open` and
`in progress`; requesting `complete` yields the structured error naming the
two available statuses. -/
theorem setStatus_unknown_status_witness :
    handleToolCall
      (setClickUpStatusCall
        (some ⟨"token", "team", "complete"⟩) none
        (some "task1") (some "complete")
        (.ok ⟨some [⟨"1", "open"⟩, ⟨"2", "in progress"⟩], none, none, none⟩)
        (fun _ => .error "unreachable") (.ok ())) =
      { text := "Error: " ++ statusNotFoundMessage "complete"
          (resolveAvailableStatuses
            ⟨some [⟨"1", "open"⟩, ⟨"2", "in progress"⟩], none, none, none⟩
            (fun _ => .error "unreachable")),
        isError := true } :=
  (setStatus_unknown_status_names_available
    ⟨"token", "team", "complete"⟩
    ⟨some [⟨"1", "open"⟩, ⟨"2", "in progress"⟩], none, none, none⟩
    (fun _ => .error "unreachable") (.ok ()) "task1" "complete"
    (by decide) (by decide)).2.1

/-! ### Comment on an unconfigured board (claim C8) -/

/-- C8: an `add_task_comment` call while no board configuration is
resolvable — neither from the shared store nor from the environment —
produces the structured not-configured error payload through the protocol
surface (whose handler is a total function: no exception escapes the
request/response boundary). -/
theorem addComment_not_configured_structured_error
    (taskId comment : String) (postComment : Except String Unit)
    (h1 : taskId ≠ "") (h2 : comment ≠ "") :
    handleToolCall
      (addClickUpCommentCall none none (some taskId) (some comment)
        postComment) =
      { text := "Error: ClickUp is not configured", isError := true } := by
  unfold addClickUpCommentCall
  rw [if_neg ?_]
  · rfl
  · simp [jsFalsy, h1, h2]

/-- Witness for C8 at concrete arguments. -/
theorem addComment_not_configured_witness :
    handleToolCall
      (addClickUpCommentCall none none (some "abc123") (some "Fixed the bug")
        (.ok ())) =
      { text := "Error: ClickUp is not configured", isError := true } :=
  addComment_not_configured_structured_error "abc123" "Fixed the bug" (.ok ())
    (by decide) (by decide)

/-! ### The ClickUp-URL pattern (claim C9) -/

theorem matchClickUpAt_nil : matchClickUpAt [] = none := by
  rfl

theorem findClickUpUrl_none_iff (cs : List Char) :
    findClickUpUrl cs = none ↔
      ∀ i, matchClickUpAt (List.drop i cs) = none := by
  induction cs with
  | nil =>
    constructor
    · intro _ i
      rw [List.drop_nil]
      exact matchClickUpAt_nil
    · intro _
      rfl
  | cons c rest ih =>
    cases hm : matchClickUpAt (c :: rest) with
    | some m =>
      constructor
      · intro h
        simp [findClickUpUrl, hm] at h
      · intro hall
        have h0 := hall 0
        rw [List.drop_zero] at h0
        rw [hm] at h0
        cases h0
    | none =>
      have heq : findClickUpUrl (c :: rest) = findClickUpUrl rest := by
        simp [findClickUpUrl, hm]
      rw [heq, ih]
      constructor
      · intro hall i
        cases i with
        | zero => simpa using hm
        | succ k => simpa using hall k
      · intro hall i
        simpa using hall (i + 1)

theorem findClickUpUrl_some_first (cs u : List Char)
    (h : findClickUpUrl cs = some u) :
    ∃ i, matchClickUpAt (List.drop i cs) = some u ∧
      ∀ j, j < i → matchClickUpAt (List.drop j cs) = none := by
  induction cs with
  | nil => simp [findClickUpUrl] at h
  | cons c rest ih =>
    cases hm : matchClickUpAt (c :: rest) with
    | some m =>
      have hu : m = u := by
        simpa [findClickUpUrl, hm] using h
      refine ⟨0, ?_, ?_⟩
      · rw [List.drop_zero, hm, hu]
      · intro j hj
        exact absurd hj (Nat.not_lt_zero j)
    | none =>
      have hrest : findClickUpUrl rest = some u := by
        simpa [findClickUpUrl, hm] using h
      obtain ⟨i, hi, hlt⟩ := ih hrest
      refine ⟨i + 1, ?_, ?_⟩
      · simpa using hi
      · intro j hj
        cases j with
        | zero => simpa using hm
        | succ k => simpa using hlt k (Nat.lt_of_succ_lt_succ hj)

/-- C9: the correlator's URL pattern. (1) The spec's concrete scenario: the
comment text yields exactly `https://app.clickup.com/t/abc123`. (2) Any
returned match sits at the leftmost matching position — every earlier
position fails the pattern — so the first such URL is returned. (3) The
scan returns `none` exactly when no position of the text matches the
pattern. (4) A comment scan that finds no URL leaves every existing task
reference unchanged through a full correlation run. -/
theorem clickUpUrl_first_match_none_preserves :
    (findClickUpUrlString "See https://app.clickup.com/t/abc123 for tracking" =
      some "https://app.clickup.com/t/abc123") ∧
    (∀ cs u : List Char, findClickUpUrl cs = some u →
      ∃ i, matchClickUpAt (List.drop i cs) = some u ∧
        ∀ j, j < i → matchClickUpAt (List.drop j cs) = none) ∧
    (∀ cs : List Char, findClickUpUrl cs = none ↔
      ∀ i, matchClickUpAt (List.drop i cs) = none) ∧
    (∀ (c : SentryClientModel) (issuesByProject : IssuesByProject)
        (tm : JsMap String) (issueId : String),
      clientScan c issueId = none →
      mapGet (correlateAll (clientScan c) issuesByProject tm) issueId =
        mapGet tm issueId) := by
  refine ⟨by rfl, findClickUpUrl_some_first, findClickUpUrl_none_iff, ?_⟩
  intro c issuesByProject tm issueId h
  exact mapGet_correlateAll_of_scan_none (clientScan c) issuesByProject tm
    issueId h

/-! ### Unknown identifiers resolve to NotFound (claim C10) -/

theorem findIssueInProjects_eq_none (issuesByProject : IssuesByProject)
    (issueId : String)
    (h : ∀ e ∈ issuesByProject, ∀ i ∈ e.2,
      i.id ≠ issueId ∧ i.shortId ≠ issueId) :
    findIssueInProjects issuesByProject issueId = none := by
  induction issuesByProject with
  | nil => rfl
  | cons entry rest ih =>
    obtain ⟨project, issues⟩ := entry
    have hfind : issues.find?
        (fun i => i.id == issueId || i.shortId == issueId) = none := by
      refine List.find?_eq_none.mpr (fun i hi => ?_)
      have hne := h (project, issues) (List.mem_cons_self _ _) i hi
      simp [hne.1, hne.2]
    rw [findIssueInProjects, hfind]
    exact ih (fun e he => h e (List.mem_cons_of_mem _ he))

/-- C10: the detail and resolve operations resolve identifiers only against
the freshly fetched issue set; an identifier matching no fetched issue (by
full or short id) yields the structured `Issue not found` error payload
from both operations, and the resolve operation issues no upstream
mutation. The fetched set itself is restricted by the fixed request:
unresolved-only query, 14-day stats window, at most 25 issues per
project. -/
theorem identifier_outside_fetched_set_not_found
    (issuesByProject : IssuesByProject) (issueId : String)
    (hne : issueId ≠ "")
    (h : ∀ e ∈ issuesByProject, ∀ i ∈ e.2,
      i.id ≠ issueId ∧ i.shortId ≠ issueId) :
    handleToolCall (getIssueDetailsCall issuesByProject (some issueId)) =
      { text := "Error: Issue not found: " ++ issueId, isError := true } ∧
    handleToolCall ((resolveIssueCall issuesByProject (some issueId)).1) =
      { text := "Error: Issue not found: " ++ issueId, isError := true } ∧
    (resolveIssueCall issuesByProject (some issueId)).2 = none ∧
    (∀ slug r, projectIssuesRequest slug = .ok r →
      r.limit = 25 ∧ r.statsPeriod = "14d" ∧
        strIncludes r.query "is:unresolved" = true) := by
  have hfind := findIssueInProjects_eq_none issuesByProject issueId h
  have hid : jsOrStr (some issueId) "" = issueId := by
    simp [jsOrStr, hne]
  refine ⟨?_, ?_, ?_, ?_⟩
  · unfold getIssueDetailsCall
    rw [if_neg (by simp [jsFalsy, hne])]
    dsimp only
    rw [hid, hfind]
    rfl
  · unfold resolveIssueCall
    rw [if_neg (by simp [jsFalsy, hne])]
    dsimp only
    rw [hid, hfind]
    rfl
  · unfold resolveIssueCall
    rw [if_neg (by simp [jsFalsy, hne])]
    dsimp only
    rw [hid, hfind]
  · intro slug r hr
    unfold projectIssuesRequest at hr
    dsimp only at hr
    split at hr
    · cases hr
    · cases hr
      refine ⟨rfl, rfl, ?_⟩
      show charsInclude ("is:unresolved".toList)
        (("project:" ++ (slug.splitOn "/").getD 1 "" ++ " is:unresolved").toList) =
        true
      have hsplit :
          ("project:" ++ (slug.splitOn "/").getD 1 "" ++ " is:unresolved").toList =
          ("project:".toList ++ ((slug.splitOn "/").getD 1 "").toList ++ [' ']) ++
            "is:unresolved".toList := by
        simp [String.toList]
      rw [hsplit]
      exact charsInclude_append_self _ _

/-- Witness for C10: a one-issue mapping and the unknown identifier
`999`. -/
theorem identifier_outside_fetched_set_not_found_witness :
    handleToolCall
      (getIssueDetailsCall [("acme/web", [sampleIssue])] (some "999")) =
      { text := "Error: Issue not found: 999", isError := true } :=
  (identifier_outside_fetched_set_not_found [("acme/web", [sampleIssue])]
    "999" (by decide) (by decide)).1

end SentryAutoPR
